import Mathlib

/-!
Verification of the API-translation gateway (bots repository).

This file gives a shallow embedding, in Lean, of the request/response
transformation and SSE streaming-normalization layer of the gateway:

- the Coze adapter (src/adapters/coze_adapter.py): transform_request,
  _transform_chat_response, _transform_coze_stream_data, _parse_stream_line
  and the SSE line-reassembly loop of make_stream_request;
- the Anthropic and Google payload converters
  (src/core/platform_clients.py);
- the non-streaming dispatch path of AdapterManager.process_request
  (src/adapters/manager.py).

Python dict payloads are modelled by an inductive Json type whose objects
are ordered key/value lists (mirroring dict insertion order); dict.get,
truthiness, the in operator and str() are modelled by explicit helper
functions.  Code paths on which Python would raise are modelled with
Except String, the error text standing in for str(e) (quotes that CPython
puts around type names in those messages are elided, since they never
feed back into control flow).  External I/O (the upstream HTTP status,
the body fragments of the SSE stream, the result of the post-stream
content-recovery fetch, json.loads, Python's randomized hash) enters the
model as explicit parameters.
-/

namespace Bots

/-- JSON values as produced by json.loads and passed around as Python
dicts; objects keep their key order, as Python dicts do. -/
inductive Json where
  | null : Json
  | bool : Bool → Json
  | num : Int → Json
  | str : String → Json
  | arr : List Json → Json
  | obj : List (String × Json) → Json
deriving Repr, Inhabited

namespace Json

/-- Lookup of a key in an object field list (first occurrence; Python
dict keys are unique, so this is dict access). -/
def lookupKey (fields : List (String × Json)) (key : String) : Option Json :=
  match fields with
  | [] => none
  | (k, v) :: rest => if k = key then some v else lookupKey rest key

/-- Python truthiness of a JSON value: None, False, 0, empty string,
empty list and empty dict are falsy. -/
def pyTruthy : Json → Bool
  | .null => false
  | .bool b => b
  | .num n => n ≠ 0
  | .str s => s ≠ ""
  | .arr l => !l.isEmpty
  | .obj l => !l.isEmpty

/-- Python equality between an arbitrary value and a string literal
(the only form of == applied to dynamic values in the embedded code):
true exactly when the value is that string. -/
def eqStr : Json → String → Bool
  | .str s, t => s = t
  | _, _ => false

end Json

mutual

/-- Model of the Python str() conversion used inside f-strings.  String
values print verbatim; containers print in Python repr style except that
the quotes CPython puts around strings inside containers are elided
(no claim in this development evaluates str() on a container). -/
def pyStr : Json → String
  | .null => "None"
  | .bool b => if b then "True" else "False"
  | .num n => toString n
  | .str s => s
  | .arr l => "[" ++ String.intercalate ", " (pyStrList l) ++ "]"
  | .obj l => "\x7b" ++ String.intercalate ", " (pyStrObj l) ++ "\x7d"

def pyStrList : List Json → List String
  | [] => []
  | j :: rest => pyStr j :: pyStrList rest

def pyStrObj : List (String × Json) → List String
  | [] => []
  | (k, v) :: rest => (k ++ ": " ++ pyStr v) :: pyStrObj rest

end

/-- Python str.startswith, on code points (Python strings are sequences
of code points, so List Char is the faithful representation). -/
def pyStartsWith (s pat : String) : Bool :=
  pat.data.isPrefixOf s.data

/-- Python slicing s[n:], on code points. -/
def pyDropN (s : String) (n : Nat) : String :=
  ⟨s.data.drop n⟩

/-! ## Data model of the OpenAI-compatible request surface

ChatMessage and ChatCompletionRequest fields are read by the adapters
through dict .get calls, so every field an adapter touches is optional
here; absent and null coincide, as they do for dict.get. -/

structure ChatMessage where
  role : Option String := none
  content : Option String := none
deriving Repr, DecidableEq

structure OpenAIRequest where
  model : Option String := none
  messages : Option (List ChatMessage) := none
  user : Option String := none
  stream : Option Bool := none
  max_tokens : Option Int := none
  system : Option String := none
deriving Repr, DecidableEq

/-! ## Coze adapter: transform_request
(src/adapters/coze_adapter.py, CozeAdapter.transform_request) -/

/-- One entry of the Coze additional_messages list. -/
structure CozeMsg where
  role : Option String
  content : String
deriving Repr, DecidableEq

/-- The Coze v3 chat request built by transform_request. -/
structure CozeRequest where
  bot_id : String
  user_id : String
  additional_messages : List CozeMsg
  stream : Bool
deriving Repr, DecidableEq

/-- Result of CozeAdapter.transform_request: either a Coze request or the
OpenAI request passed through unchanged (unsupported endpoint or missing
messages key). -/
inductive CozeTransformResult where
  | coze : CozeRequest → CozeTransformResult
  | passthrough : OpenAIRequest → CozeTransformResult
deriving Repr, DecidableEq

/-- Bot-id derivation from the model field: strip a leading bot- prefix,
or use the whole model name. -/
def deriveBotId (model : String) : String :=
  if pyStartsWith model "bot-" then pyDropN model 4 else model

/-- The enumerate loop of transform_request: the last message becomes
query (content, defaulting to empty), all earlier messages become the
chat history with role preserved and content defaulting to empty. -/
def cozeQueryHistory : List ChatMessage → String × List CozeMsg
  | [] => ("", [])
  | [m] => (m.content.getD "", [])
  | m :: m2 :: rest =>
    let p := cozeQueryHistory (m2 :: rest)
    (p.1, ⟨m.role, m.content.getD ""⟩ :: p.2)

/-- CozeAdapter.transform_request.  Raises ValueError (modelled as
Except.error) when the derived bot id is empty; for endpoints other than
/chat/completions or requests without a messages key the request is
returned as-is. -/
def cozeTransformRequest (endpoint : String) (req : OpenAIRequest) :
    Except String CozeTransformResult :=
  if endpoint = "/chat/completions" then
    match req.messages with
    | some messages =>
      let model := req.model.getD ""
      let botId := deriveBotId model
      if botId = "" then
        .error "Bot ID could not be extracted from model name"
      else
        let p := cozeQueryHistory messages
        let base : List CozeMsg := [⟨some "user", p.1⟩]
        let additional := if p.2.isEmpty then base else p.2 ++ base
        .ok (.coze ⟨botId, req.user.getD "default_user", additional,
                    req.stream.getD false⟩)
    | none => .ok (.passthrough req)
  else .ok (.passthrough req)

/-! ## Coze adapter: non-streaming response transform
(src/adapters/coze_adapter.py, CozeAdapter._transform_chat_response) -/

/-- The model string used in Coze-built responses:
bot-{bot_id} when self.bot_id is truthy, else coze-bot. -/
def cozeModelName (botId : Option String) : String :=
  match botId with
  | some b => if b ≠ "" then "bot-" ++ b else "coze-bot"
  | none => "coze-bot"

/-- The scan of the messages list for the first entry whose type is
answer; its content (defaulting to empty) becomes the response text.
A non-dict entry makes message.get raise AttributeError, which
_transform_chat_response does not catch. -/
def cozeAnswerScan : List Json → Except String Json
  | [] => .ok (.str "")
  | m :: rest =>
    match m with
    | .obj fs =>
      if ((Json.lookupKey fs "type").getD .null).eqStr "answer" then
        .ok ((Json.lookupKey fs "content").getD (.str ""))
      else cozeAnswerScan rest
    | _ => .error "AttributeError: message has no attribute get"

/-- CozeAdapter._transform_chat_response: build the OpenAI-shaped chat
completion from a Coze response dict (now models int(time.time())). -/
def cozeTransformChatResponse (botId : Option String) (now : Int)
    (resp : List (String × Json)) : Except String Json := do
  let text ←
    match Json.lookupKey resp "messages" with
    | none => cozeAnswerScan []
    | some (.arr l) => cozeAnswerScan l
    | some _ => .error "TypeError: messages object is not iterable"
  .ok (.obj
    [("id", .str ("chatcmpl-" ++ pyStr ((Json.lookupKey resp "conversation_id").getD (.str "unknown")))),
     ("object", .str "chat.completion"),
     ("created", .num now),
     ("model", .str (cozeModelName botId)),
     ("choices", .arr [.obj
       [("index", .num 0),
        ("message", .obj [("role", .str "assistant"), ("content", text)]),
        ("finish_reason", .str "stop")]]),
     ("usage", .obj
       [("prompt_tokens", .num 0),
        ("completion_tokens", .num 0),
        ("total_tokens", .num 0)])])

/-! ## Anthropic client payload converters
(src/core/platform_clients.py, AnthropicClient) -/

/-- The loop of _convert_to_anthropic_format over the messages list:
remembers the content of the last system-role message (defaulting to
empty) and keeps every non-system message, in order. -/
def anthropicSplitSystem : List ChatMessage → Option String × List ChatMessage
  | [] => (none, [])
  | m :: rest =>
    let p := anthropicSplitSystem rest
    if m.role = some "system" then
      (p.1.orElse (fun _ => some (m.content.getD "")), p.2)
    else (p.1, m :: p.2)

/-- AnthropicClient._convert_to_anthropic_format.  The converted request
is a copy of the inbound one with system messages split out; the system
field is only assigned when the remembered system content is truthy.
When the messages key is absent the Python function falls through to
return a variable that was never assigned (UnboundLocalError), modelled
as an error. -/
def convertToAnthropicFormat (req : OpenAIRequest) : Except String OpenAIRequest :=
  match req.messages with
  | none => .error "UnboundLocalError: local variable anthropic_data referenced before assignment"
  | some messages =>
    let p := anthropicSplitSystem messages
    let r1 := { req with messages := some p.2 }
    let r2 :=
      match p.1 with
      | some s => if s ≠ "" then { r1 with system := some s } else r1
      | none => r1
    .ok (if r2.max_tokens.isNone then { r2 with max_tokens := some 4096 } else r2)

/-- Python int addition as applied to the usage token counts (raises
TypeError when the dynamic values do not support +). -/
def pyAdd : Json → Json → Except String Json
  | .num a, .num b => .ok (.num (a + b))
  | .str a, .str b => .ok (.str (a ++ b))
  | _, _ => .error "TypeError: unsupported operand types for +"

/-- Chained dict access resp.get(k1, default-dict).get(k2, 0): returns 0 when
the outer key is absent, raises AttributeError when the outer value is
not a dict. -/
def chainGetNum (resp : List (String × Json)) (k1 k2 : String) :
    Except String Json :=
  match Json.lookupKey resp k1 with
  | none => .ok (.num 0)
  | some (.obj fs) => .ok ((Json.lookupKey fs k2).getD (.num 0))
  | some _ => .error "AttributeError: value has no attribute get"

/-- AnthropicClient._convert_from_anthropic_format: when the response
carries a content list, rebuild an OpenAI chat completion from its first
entry; otherwise the response is returned unchanged. -/
def convertFromAnthropicFormat (resp : List (String × Json)) :
    Except String Json :=
  match Json.lookupKey resp "content" with
  | some (.arr l) => do
    let text ←
      match l with
      | [] => Except.ok (Json.str "")
      | first :: _ =>
        match first with
        | .obj fs => Except.ok ((Json.lookupKey fs "text").getD (.str ""))
        | _ => Except.error "AttributeError: content entry has no attribute get"
    let inTok ← chainGetNum resp "usage" "input_tokens"
    let outTok ← chainGetNum resp "usage" "output_tokens"
    let total ← pyAdd inTok outTok
    .ok (.obj
      [("id", (Json.lookupKey resp "id").getD (.str "")),
       ("object", .str "chat.completion"),
       ("created", .num 1677652288),
       ("model", (Json.lookupKey resp "model").getD (.str "")),
       ("choices", .arr [.obj
         [("index", .num 0),
          ("message", .obj [("role", .str "assistant"), ("content", text)]),
          ("finish_reason", (Json.lookupKey resp "stop_reason").getD (.str "stop"))]]),
       ("usage", .obj
         [("prompt_tokens", inTok),
          ("completion_tokens", outTok),
          ("total_tokens", total)])])
  | _ => .ok (.obj resp)

/-! ## Google client payload converters
(src/core/platform_clients.py, GoogleClient) -/

structure GooglePart where
  text : String
deriving Repr, DecidableEq

structure GoogleContent where
  role : String
  parts : List GooglePart
deriving Repr, DecidableEq

structure GoogleGenConfig where
  maxOutputTokens : Int
deriving Repr, DecidableEq

structure GoogleRequest where
  contents : List GoogleContent
  generationConfig : Option GoogleGenConfig
deriving Repr, DecidableEq

/-- Result of GoogleClient._convert_to_google_format: a Google request,
or the OpenAI request unchanged when the messages key is absent. -/
inductive GoogleTransformResult where
  | google : GoogleRequest → GoogleTransformResult
  | passthrough : OpenAIRequest → GoogleTransformResult
deriving Repr, DecidableEq

/-- The append loop over messages in _convert_to_google_format: role is
user exactly when the message role is user, everything else (assistant,
system, tool, missing) maps to model. -/
def googleContentsLoop (msgs : List ChatMessage) : List GoogleContent :=
  msgs.foldl
    (fun acc m =>
      acc ++ [⟨if m.role = some "user" then "user" else "model",
              [⟨m.content.getD ""⟩]⟩])
    []

/-- GoogleClient._convert_to_google_format. -/
def convertToGoogleFormat (req : OpenAIRequest) : GoogleTransformResult :=
  match req.messages with
  | some msgs =>
    .google ⟨googleContentsLoop msgs,
             match req.max_tokens with
             | some n => some ⟨n⟩
             | none => none⟩
  | none => .passthrough req

/-- GoogleClient._convert_from_google_format: when the response carries a
candidates list, rebuild an OpenAI chat completion from its first entry;
otherwise the response is returned unchanged.  Python's randomized hash
(used only to synthesize the id) is a parameter. -/
def convertFromGoogleFormat (hashF : Json → Int) (resp : List (String × Json)) :
    Except String Json :=
  match Json.lookupKey resp "candidates" with
  | some v => do
    let candidate : List (String × Json) ←
      match v with
      | .arr (first :: _) =>
        (match first with
         | .obj fs => Except.ok fs
         | _ => Except.error "AttributeError: candidate has no attribute get")
      | .arr [] => Except.ok []
      | other =>
        if other.pyTruthy then
          Except.error "TypeError: candidates object is not subscriptable"
        else Except.ok []
    let contentVal := (Json.lookupKey candidate "content").getD (.obj [])
    let partsVal ←
      match contentVal with
      | .obj fs => Except.ok ((Json.lookupKey fs "parts").getD (.arr [.obj []]))
      | _ => Except.error "AttributeError: content has no attribute get"
    let firstPart ←
      match partsVal with
      | .arr [] => Except.error "IndexError: list index out of range"
      | .arr (p :: _) => Except.ok p
      | _ => Except.error "TypeError: parts object is not subscriptable"
    let text ←
      match firstPart with
      | .obj fs => Except.ok ((Json.lookupKey fs "text").getD (.str ""))
      | _ => Except.error "AttributeError: part has no attribute get"
    let finishRaw := (Json.lookupKey candidate "finishReason").getD (.str "STOP")
    let finish ←
      match finishRaw with
      | .str s => Except.ok (Json.str s.toLower)
      | _ => Except.error "AttributeError: finishReason has no attribute lower"
    let pTok ← chainGetNum resp "usageMetadata" "promptTokenCount"
    let cTok ← chainGetNum resp "usageMetadata" "candidatesTokenCount"
    let tTok ← chainGetNum resp "usageMetadata" "totalTokenCount"
    .ok (.obj
      [("id", .str ("google-" ++ (toString (hashF text)).take 8)),
       ("object", .str "chat.completion"),
       ("created", .num 1677652288),
       ("model", .str "gemini-pro"),
       ("choices", .arr [.obj
         [("index", .num 0),
          ("message", .obj [("role", .str "assistant"), ("content", text)]),
          ("finish_reason", finish)]]),
       ("usage", .obj
         [("prompt_tokens", pTok),
          ("completion_tokens", cTok),
          ("total_tokens", tTok)])])
  | none => .ok (.obj resp)

/-! ## Coze streaming normalizer
(src/adapters/coze_adapter.py, CozeAdapter.make_stream_request,
_parse_stream_line and _transform_coze_stream_data)

The upstream transport delivers the SSE body as arbitrarily split text
fragments; make_stream_request reassembles them into lines through a
buffer, interprets event:/data: framing, and yields OpenAI-style chunks.
Yields are modelled as the chunk values themselves (the code serializes
each one as a data: json.dumps line; serialization is deterministic, so
nothing about ordering or identity of chunks is lost).  json.loads is a
parameter of the machinery; the wall clock and the result of the
post-stream content-recovery fetch are parameters as well. -/

/-- Python str.strip() whitespace test (ASCII part; the inputs modelled
here contain no exotic Unicode whitespace). -/
def isPySpace (c : Char) : Bool :=
  c = ' ' || c = '\t' || c = '\n' || c = '\r' || c = '\x0b' || c = '\x0c'

/-- Python str.strip(), on code points. -/
def stripChars (l : List Char) : List Char :=
  ((l.dropWhile isPySpace).reverse.dropWhile isPySpace).reverse

/-- Substring test, modelling the Python in operator on strings. -/
def charsContain (pat : List Char) : List Char → Bool
  | [] => pat.isEmpty
  | c :: rest => pat.isPrefixOf (c :: rest) || charsContain pat rest

/-- The Python in operator applied to a string key and a dynamic value:
key lookup for dicts, substring test for strings, element membership for
lists, TypeError otherwise. -/
def pyContainsKey (key : String) : Json → Except String Bool
  | .obj fs => .ok (fs.any (fun kv => kv.1 = key))
  | .str s => .ok (charsContain key.data s.data)
  | .arr l => .ok (l.any (fun j => j.eqStr key))
  | _ => .error "TypeError: argument of type is not iterable"

/-- Python value.get(key) with no default: None when absent, and an
AttributeError when the value is not a dict. -/
def pyDictGet (key : String) : Json → Except String Json
  | .obj fs => .ok ((Json.lookupKey fs key).getD .null)
  | _ => .error "AttributeError: value has no attribute get"

/-- The per-session mutable state of make_stream_request, together with
the adapter-level _current_event_type that _parse_stream_line writes. -/
structure StreamCore where
  currentEvent : Option String
  adapterEvent : Option String
  conversationId : Json
  chatId : Json
  hasYieldedStart : Bool
deriving Repr

/-- State at the start of a streaming session: both id variables are
Python None, no start chunk has been yielded yet. -/
def initStreamCore : StreamCore :=
  ⟨none, none, .null, .null, false⟩

/-- The conversation-id probe of make_stream_request (line 286-287): only
while conversation_id is still falsy, and the in test and .get can raise
on non-dict data. -/
def updateConvId (st : StreamCore) (data : Json) : Except String StreamCore :=
  if st.conversationId.pyTruthy then .ok st
  else
    match pyContainsKey "conversation_id" data with
    | .error m => .error m
    | .ok false => .ok st
    | .ok true =>
      match pyDictGet "conversation_id" data with
      | .error m => .error m
      | .ok v => .ok { st with conversationId := v }

/-- The chat-id probe of make_stream_request (line 288-289). -/
def updateChatId (st : StreamCore) (data : Json) : Except String StreamCore :=
  if st.chatId.pyTruthy then .ok st
  else
    match pyContainsKey "id" data with
    | .error m => .error m
    | .ok false => .ok st
    | .ok true =>
      match pyDictGet "id" data with
      | .error m => .error m
      | .ok v => .ok { st with chatId := v }

/-- The conversation-id / chat-id extraction of make_stream_request
(lines 286-289), run in order. -/
def updateIds (st : StreamCore) (data : Json) : Except String StreamCore :=
  match updateConvId st data with
  | .error m => .error m
  | .ok st1 => updateChatId st1 data

/-- Shape of every chunk built by the Coze streaming code. -/
def cozeStreamChunk (idVal : Json) (created : Json) (modelStr : String)
    (delta : List (String × Json)) (finish : Json) : Json :=
  .obj [("id", idVal), ("object", .str "chat.completion.chunk"),
        ("created", created), ("model", .str modelStr),
        ("choices", .arr [.obj
          [("index", .num 0), ("delta", .obj delta), ("finish_reason", finish)]])]

/-- CozeAdapter._transform_coze_stream_data: interpret one parsed SSE
record.  Non-dict data makes data.get raise inside the local try, which
the function itself catches and turns into None. -/
def transformCozeStreamData (botId : Option String) (now : Int)
    (data : Json) : Option Json :=
  match data with
  | .obj fs =>
    let conversationId := (Json.lookupKey fs "conversation_id").getD (.str "unknown")
    let status := (Json.lookupKey fs "status").getD (.str "")
    let chatId := (Json.lookupKey fs "id").getD conversationId
    let createdAt := (Json.lookupKey fs "created_at").getD (.num now)
    if status.eqStr "in_progress" then
      some (cozeStreamChunk (.str ("coze-" ++ pyStr chatId)) createdAt
        (cozeModelName botId) [] .null)
    else if status.eqStr "completed" then
      some (cozeStreamChunk (.str ("coze-" ++ pyStr chatId)) createdAt
        (cozeModelName botId) [] (.str "stop"))
    else if status.eqStr "failed" then
      some (.obj [("error", .obj
        [("message", .str "Coze conversation failed"),
         ("type", .str "coze_error"),
         ("code", .str "conversation_failed")])])
    else if fs.any (fun kv => kv.1 = "message") then
      match (Json.lookupKey fs "message").getD (.obj []) with
      | .obj mfs =>
        let content := (Json.lookupKey mfs "content").getD (.str "")
        if content.pyTruthy then
          some (cozeStreamChunk (.str ("coze-" ++ pyStr chatId)) createdAt
            (cozeModelName botId) [("content", content)] .null)
        else none
      | _ => none
    else none
  | _ => none

/-- The synthetic start chunk of make_stream_request (lines 296-306):
id falls back to coze-{chat_id or stream} when the first result carries
no id of its own. -/
def cozeStartChunk (botId : Option String) (now : Int) (st : StreamCore)
    (result : Json) : Json :=
  let defaultId := "coze-" ++ (if st.chatId.pyTruthy then pyStr st.chatId else "stream")
  let idVal :=
    match result with
    | .obj fs => (Json.lookupKey fs "id").getD (.str defaultId)
    | _ => .str defaultId
  cozeStreamChunk idVal (.num now) (cozeModelName botId)
    [("role", .str "assistant")] .null

/-- CozeAdapter._parse_stream_line on one already reassembled line:
returns the updated _current_event_type and the parsed result (None
drops the line).  Unlike the main data: branch this path also discards
a literal null payload explicitly. -/
def parseStreamLineFn (jloads : String → Option Json) (botId : Option String)
    (now : Int) (adapterEvent : Option String) (rawLine : List Char) :
    Option String × Option Json :=
  let line := stripChars rawLine
  if line.isEmpty then (adapterEvent, none)
  else if "event:".data.isPrefixOf line then
    (some ⟨stripChars (line.drop 6)⟩, none)
  else if "data:".data.isPrefixOf line then
    let js := stripChars (line.drop 5)
    if js.isEmpty || js = "null".data then (adapterEvent, none)
    else
      match jloads ⟨js⟩ with
      | some d => (adapterEvent, transformCozeStreamData botId now d)
      | none => (adapterEvent, none)
  else
    match jloads ⟨line⟩ with
    | some d => (adapterEvent, transformCozeStreamData botId now d)
    | none => (adapterEvent, none)

/-- One complete line of the make_stream_request SSE loop (lines
261-328): event: lines update the event type, data: lines are parsed and
normalized (with the one-time start chunk), any other line goes through
the _parse_stream_line fallback.  An error is an exception propagating
out of the loop. -/
def handleLine (jloads : String → Option Json) (botId : Option String)
    (now : Int) (st : StreamCore) (rawLine : List Char) :
    Except String (StreamCore × List Json) :=
  let line := stripChars rawLine
  if line.isEmpty then .ok (st, [])
  else if "event:".data.isPrefixOf line then
    .ok ({ st with currentEvent := some ⟨stripChars (line.drop 6)⟩ }, [])
  else if "data:".data.isPrefixOf line then
    let dataStr := stripChars (line.drop 5)
    if dataStr.isEmpty then .ok (st, [])
    else
      match jloads ⟨dataStr⟩ with
      | none => .ok (st, [])
      | some data =>
        match updateIds st data with
        | .error m => .error m
        | .ok st1 =>
          match transformCozeStreamData botId now data with
          | none => .ok (st1, [])
          | some result =>
            if result.pyTruthy then
              if !st1.hasYieldedStart then
                .ok ({ st1 with hasYieldedStart := true },
                     [cozeStartChunk botId now st1 result, result])
              else .ok (st1, [result])
            else .ok (st1, [])
  else
    let p := parseStreamLineFn jloads botId now st.adapterEvent line
    let st1 := { st with adapterEvent := p.1 }
    match p.2 with
    | some r => if r.pyTruthy then .ok (st1, [r]) else .ok (st1, [])
    | none => .ok (st1, [])

/-- Outcome of running part of a session: the state reached, the chunks
yielded so far, and the pending exception if one propagated. -/
structure RunOutcome where
  core : StreamCore
  outs : List Json
  err : Option String

/-- Process a list of complete lines in order, stopping at the first
propagating exception (the generator stops consuming there). -/
def runLines (jloads : String → Option Json) (botId : Option String)
    (now : Int) : StreamCore → List (List Char) → RunOutcome
  | st, [] => ⟨st, [], none⟩
  | st, l :: ls =>
    match handleLine jloads botId now st l with
    | .error m => ⟨st, [], some m⟩
    | .ok (st1, out) =>
      let r := runLines jloads botId now st1 ls
      ⟨r.core, out ++ r.outs, r.err⟩

/-- Split a character stream into its complete lines (terminated by a
newline) and the trailing partial line, exactly as the
while-newline-in-buffer loop does. -/
def splitNl : List Char → List (List Char) × List Char
  | [] => ([], [])
  | c :: rest =>
    let p := splitNl rest
    if c = '\n' then ([] :: p.1, p.2)
    else
      match p.1 with
      | [] => ([], c :: p.2)
      | l :: ls => ((c :: l) :: ls, p.2)

/-- Feed the fragments one by one: each is appended to the line buffer,
complete lines are processed, the trailing partial line is carried into
the next fragment. -/
def feedFrags (jloads : String → Option Json) (botId : Option String)
    (now : Int) : StreamCore → List Char → List String → RunOutcome
  | st, _buf, [] => ⟨st, [], none⟩
  | st, buf, f :: fs =>
    let p := splitNl (buf ++ f.data)
    let r := runLines jloads botId now st p.1
    match r.err with
    | some m => ⟨r.core, r.outs, some m⟩
    | none =>
      let r2 := feedFrags jloads botId now r.core p.2 fs
      ⟨r2.core, r.outs ++ r2.outs, r2.err⟩

/-- The content-recovery chunk appended after the stream when
_fetch_conversation_content recovered text (lines 336-348); its id field
is the raw chat_id value. -/
def cozeFetchChunk (botId : Option String) (now : Int) (chatId : Json)
    (content : String) : Json :=
  cozeStreamChunk chatId (.num now) (cozeModelName botId)
    [("content", .str content)] .null

/-- CozeAdapter.make_stream_request as a function of the upstream status
code, the SSE body fragments, and the recovery-fetch result: the full
sequence of values the generator yields.  A status of 400 or more yields
a single platform_error payload; an exception inside the loop yields the
chunks already produced plus one internal_error payload; otherwise the
yielded chunks are followed by the recovery chunk when both ids were
observed and the fetch recovered truthy text. -/
def makeStreamOutputs (jloads : String → Option Json) (botId : Option String)
    (now : Int) (status : Nat) (fragments : List String)
    (fetched : Option String) : List Json :=
  if status ≥ 400 then
    [.obj [("error", .obj
      [("message", .str ("Coze API error: " ++ toString status)),
       ("type", .str "platform_error"),
       ("code", .num (status : Int))])]]
  else
    let r := feedFrags jloads botId now initStreamCore [] fragments
    match r.err with
    | some m =>
      r.outs ++ [.obj [("error", .obj
        [("message", .str ("Internal error: " ++ m)),
         ("type", .str "internal_error"),
         ("code", .str "streaming_error")])]]
    | none =>
      r.outs ++
        (if r.core.conversationId.pyTruthy && r.core.chatId.pyTruthy then
          match fetched with
          | some content =>
            if content ≠ "" then [cozeFetchChunk botId now r.core.chatId content]
            else []
          | none => []
        else [])

/-! ## Concrete model of json.loads

The streaming machinery above is parametric in json.loads.  The concrete
scenarios instantiate it with this recursive-descent parser for the JSON
fragment those scenarios exercise: null, true, false, optionally signed
integers, strings without escape sequences, arrays and objects, with
ASCII whitespace between tokens.  On that fragment it agrees with
Python's json.loads; inputs outside the fragment are rejected. -/

/-- Skip ASCII whitespace between JSON tokens. -/
def skipWs : List Char → List Char
  | c :: rest =>
    if c = ' ' || c = '\t' || c = '\n' || c = '\r' then skipWs rest
    else c :: rest
  | [] => []

/-- Parse the remainder of a JSON string literal after the opening
quote; escape sequences are outside the modelled fragment. -/
def parseStringRest (acc : List Char) : List Char → Option (String × List Char)
  | [] => none
  | c :: rest =>
    if c = '"' then some (⟨acc.reverse⟩, rest)
    else if c = '\\' then none
    else parseStringRest (c :: acc) rest

/-- Parse a run of decimal digits. -/
def parseDigits (acc : List Char) : List Char → List Char × List Char
  | [] => (acc.reverse, [])
  | c :: rest =>
    if c.isDigit then parseDigits (c :: acc) rest
    else (acc.reverse, c :: rest)

/-- Digits to a natural number value. -/
def digitsToNat (l : List Char) : Nat :=
  l.foldl (fun n c => 10 * n + (c.toNat - 48)) 0

mutual

/-- Parse one JSON value (fueled recursion; the fuel is instantiated
large enough for the whole input below). -/
def parseValue : Nat → List Char → Option (Json × List Char)
  | 0, _ => none
  | fuel + 1, input =>
    match skipWs input with
    | [] => none
    | c :: rest =>
      if c = '"' then
        match parseStringRest [] rest with
        | some (s, r) => some (.str s, r)
        | none => none
      else if c = '[' then
        match skipWs rest with
        | ']' :: r => some (.arr [], r)
        | other =>
          match parseItems fuel other with
          | some (items, r) => some (.arr items, r)
          | none => none
      else if c = '\x7b' then
        match skipWs rest with
        | '\x7d' :: r => some (.obj [], r)
        | other =>
          match parseMembers fuel other with
          | some (members, r) => some (.obj members, r)
          | none => none
      else if c = 't' then
        match rest with
        | 'r' :: 'u' :: 'e' :: r => some (.bool true, r)
        | _ => none
      else if c = 'f' then
        match rest with
        | 'a' :: 'l' :: 's' :: 'e' :: r => some (.bool false, r)
        | _ => none
      else if c = 'n' then
        match rest with
        | 'u' :: 'l' :: 'l' :: r => some (.null, r)
        | _ => none
      else if c = '-' then
        match parseDigits [] rest with
        | ([], _) => none
        | (ds, r) => some (.num (-(digitsToNat ds : Int)), r)
      else if c.isDigit then
        match parseDigits [] (c :: rest) with
        | ([], _) => none
        | (ds, r) => some (.num (digitsToNat ds : Int), r)
      else none

/-- Parse one or more comma-separated array items. -/
def parseItems : Nat → List Char → Option (List Json × List Char)
  | 0, _ => none
  | fuel + 1, input => do
    let (v, rest) ← parseValue fuel input
    match skipWs rest with
    | ',' :: r => do
      let (items, r2) ← parseItems fuel r
      pure (v :: items, r2)
    | ']' :: r => pure ([v], r)
    | _ => none

/-- Parse one or more comma-separated object members. -/
def parseMembers : Nat → List Char → Option (List (String × Json) × List Char)
  | 0, _ => none
  | fuel + 1, input =>
    match skipWs input with
    | '"' :: rest => do
      let (k, r1) ← parseStringRest [] rest
      match skipWs r1 with
      | ':' :: r2 => do
        let (v, r3) ← parseValue fuel r2
        match skipWs r3 with
        | ',' :: r4 => do
          let (members, r5) ← parseMembers fuel r4
          pure ((k, v) :: members, r5)
        | '\x7d' :: r4 => pure ([(k, v)], r4)
        | _ => none
      | _ => none
    | _ => none

end

/-- The concrete instantiation of json.loads: parse the whole input,
requiring only whitespace after the value. -/
def parseJson (s : String) : Option Json :=
  match parseValue (2 * s.data.length + 4) s.data with
  | some (v, rest) => if (skipWs rest).isEmpty then some v else none
  | none => none

/-! ## Adapter manager, non-streaming dispatch
(src/adapters/manager.py, AdapterManager.process_request) -/

/-- The slice of adapter state process_request consults before entering
its try block. -/
structure AdapterState where
  initialized : Bool
  enabled : Bool
  supportedEndpoints : List String

/-- The envelope make_request returns: status code plus parsed JSON
(null when the body was not JSON). -/
structure PlatformResponse where
  status_code : Nat
  json : Json

def managerPlatformError (code : Nat) : Json :=
  .obj [("error", .obj
    [("message", .str ("Platform API error: " ++ toString code)),
     ("type", .str "platform_error"),
     ("code", .num (code : Int))])]

def managerInternalError (m : String) : Json :=
  .obj [("error", .obj
    [("message", .str ("Internal error: " ++ m)),
     ("type", .str "internal_error"),
     ("code", .str "processing_error")])]

def managerInvalidResponse : Json :=
  .obj [("error", .obj
    [("message", .str "Invalid response from platform"),
     ("type", .str "invalid_response"),
     ("code", .str "no_json")])]

/-- AdapterManager.process_request.  The three precondition checks sit
outside the try block so their exceptions escape (Except.error); inside
the try, the transform, the upstream call and the response transform are
parameters (each an Except, since each may raise), and every raised
exception is converted to an internal_error payload. -/
def processRequest (adapter : AdapterState) (endpoint : String)
    (transformReq : Except String Json)
    (upstream : Except String PlatformResponse)
    (transformResp : Json → Except String Json) : Except String Json :=
  if !adapter.initialized then .error "RuntimeError: No adapter initialized"
  else if !adapter.enabled then .error "RuntimeError: Adapter is disabled"
  else if !adapter.supportedEndpoints.contains endpoint then
    .error "ValueError: Endpoint not supported"
  else
    let inner : Except String Json :=
      match transformReq with
      | .error m => .error m
      | .ok _ =>
        match upstream with
        | .error m => .error m
        | .ok resp =>
          if resp.status_code ≥ 400 then .ok (managerPlatformError resp.status_code)
          else if resp.json.pyTruthy then transformResp resp.json
          else .ok managerInvalidResponse
    match inner with
    | .ok j => .ok j
    | .error m => .ok (managerInternalError m)

/-! ## Observers used in the theorem statements -/

/-- A start chunk: the delta of the first choice is exactly the
role-assistant announcement. -/
def isStartChunk (j : Json) : Bool :=
  match j with
  | .obj fs =>
    match Json.lookupKey fs "choices" with
    | some (.arr (c :: _)) =>
      match c with
      | .obj cfs =>
        match Json.lookupKey cfs "delta" with
        | some (.obj [("role", .str "assistant")]) => true
        | _ => false
      | _ => false
    | _ => false
  | _ => false

/-- A content-delta chunk: the delta of the first choice carries a
content key. -/
def isContentChunk (j : Json) : Bool :=
  match j with
  | .obj fs =>
    match Json.lookupKey fs "choices" with
    | some (.arr (c :: _)) =>
      match c with
      | .obj cfs =>
        match Json.lookupKey cfs "delta" with
        | some (.obj dfs) => dfs.any (fun kv => kv.1 = "content")
        | _ => false
      | _ => false
    | _ => false
  | _ => false

/-- A line that stays inside SSE framing after stripping: blank, or an
event: line, or a data: line. -/
def sseFramed (l : List Char) : Bool :=
  let s := stripChars l
  s.isEmpty || "event:".data.isPrefixOf s || "data:".data.isPrefixOf s

/-- The first choice of a response object, when it has a choices list. -/
def choicesOf (j : Json) : Option (List Json) :=
  match j with
  | .obj fs =>
    match Json.lookupKey fs "choices" with
    | some (.arr l) => some l
    | _ => none
  | _ => none

/-- The finish_reason of the first choice of a response object. -/
def firstChoiceFinish (j : Json) : Option Json :=
  match j with
  | .obj fs =>
    match Json.lookupKey fs "choices" with
    | some (.arr (c :: _)) =>
      match c with
      | .obj cfs => Json.lookupKey cfs "finish_reason"
      | _ => none
    | _ => none
  | _ => none

/-! ## Helper lemmas -/

/-- The enumerate loop of transform_request computes the last message's
content and the mapped earlier messages. -/
theorem cozeQueryHistory_eq (msgs : List ChatMessage) (last : ChatMessage)
    (h : msgs.getLast? = some last) :
    cozeQueryHistory msgs =
      (last.content.getD "",
       msgs.dropLast.map (fun m => (⟨m.role, m.content.getD ""⟩ : CozeMsg))) := by
  induction msgs with
  | nil => simp at h
  | cons m rest ih =>
    cases rest with
    | nil =>
      simp only [List.getLast?_singleton, Option.some.injEq] at h
      subst h
      simp [cozeQueryHistory]
    | cons m2 rest2 =>
      rw [List.getLast?_cons_cons] at h
      have := ih h
      simp only [cozeQueryHistory, this]
      simp [List.dropLast]

/-- The loop of _convert_to_anthropic_format keeps exactly the
non-system messages, in order. -/
theorem anthropicSplitSystem_snd (msgs : List ChatMessage) :
    (anthropicSplitSystem msgs).2 =
      msgs.filter (fun m => m.role ≠ some "system") := by
  induction msgs with
  | nil => rfl
  | cons m rest ih =>
    simp only [anthropicSplitSystem]
    by_cases h : m.role = some "system"
    · simp [h, ih, List.filter_cons]
    · simp [h, ih, List.filter_cons]

/-- The loop of _convert_to_anthropic_format remembers the content
(defaulting to empty) of the last system message, when any exists. -/
theorem anthropicSplitSystem_fst (msgs : List ChatMessage) :
    (anthropicSplitSystem msgs).1 =
      ((msgs.filter (fun m => m.role = some "system")).map
        (fun m => m.content.getD "")).getLast? := by
  induction msgs with
  | nil => rfl
  | cons m rest ih =>
    simp only [anthropicSplitSystem]
    by_cases h : m.role = some "system"
    · rw [if_pos h, ih, List.filter_cons_of_pos (by simp [h]), List.map_cons]
      cases hl : (rest.filter (fun m => m.role = some "system")).map
          (fun m => m.content.getD "") with
      | nil => simp [hl]
      | cons b tail =>
        rw [List.getLast?_cons_cons]
        cases htl : (b :: tail).getLast? with
        | none => simp [List.getLast?_eq_none_iff] at htl
        | some x => simp [Option.orElse, htl]
    · rw [if_neg h, ih, List.filter_cons_of_neg (by simp [h])]

/-- The append loop of _convert_to_google_format is the pointwise role
and parts mapping. -/
theorem googleContentsLoop_eq (msgs : List ChatMessage) :
    googleContentsLoop msgs =
      msgs.map (fun m =>
        (⟨if m.role = some "user" then "user" else "model",
          [⟨m.content.getD ""⟩]⟩ : GoogleContent)) := by
  have aux : ∀ (l : List ChatMessage) (acc : List GoogleContent),
      l.foldl (fun acc m =>
        acc ++ [(⟨if m.role = some "user" then "user" else "model",
                 [⟨m.content.getD ""⟩]⟩ : GoogleContent)]) acc =
      acc ++ l.map (fun m =>
        (⟨if m.role = some "user" then "user" else "model",
          [⟨m.content.getD ""⟩]⟩ : GoogleContent)) := by
    intro l
    induction l with
    | nil => simp
    | cons m rest ih => intro acc; simp [ih]
  simpa using aux msgs []

/-- The witness input for claim C4. -/
def c4req : OpenAIRequest :=
  ⟨some "bot-b", some [⟨some "system", some "be nice"⟩, ⟨some "user", some "hello"⟩],
   some "u1", some true, none, none⟩

/-- A newline-free stream decomposes into no complete line and itself as
the pending partial line. -/
theorem splitNl_no_newline (l : List Char) (h : '\n' ∉ l) :
    splitNl l = ([], l) := by
  induction l with
  | nil => rfl
  | cons c rest ih =>
    simp only [List.mem_cons, not_or] at h
    simp only [splitNl, ih h.2]
    rw [if_neg (fun he => h.1 he.symm)]

/-- The pending partial line left by splitNl is newline-free. -/
theorem splitNl_snd_no_newline (l : List Char) : '\n' ∉ (splitNl l).2 := by
  induction l with
  | nil => simp [splitNl]
  | cons c rest ih =>
    simp only [splitNl]
    by_cases hc : c = '\n'
    · simpa [hc] using ih
    · rw [if_neg hc]
      cases h1 : (splitNl rest).1 with
      | nil =>
        simp only [List.mem_cons, not_or]
        exact ⟨fun he => hc he.symm, ih⟩
      | cons a as => exact ih

/-- Unfolding equation for splitNl at a newline. -/
theorem splitNl_cons_newline (rest : List Char) :
    splitNl ('\n' :: rest) = ([] :: (splitNl rest).1, (splitNl rest).2) := by
  simp [splitNl]

/-- Unfolding equation for splitNl at a non-newline character. -/
theorem splitNl_cons_other (c : Char) (rest : List Char) (hc : ¬ c = '\n') :
    splitNl (c :: rest) =
      (match (splitNl rest).1 with
       | [] => ([], c :: (splitNl rest).2)
       | l :: ls => ((c :: l) :: ls, (splitNl rest).2)) := by
  simp only [splitNl, if_neg hc]

/-- Line splitting is compositional: the complete lines of s followed by
the lines of the pending part of s glued to t are the lines of s ++ t,
with the same final pending part. -/
theorem splitNl_append (s t : List Char) :
    splitNl (s ++ t) =
      ((splitNl s).1 ++ (splitNl ((splitNl s).2 ++ t)).1,
       (splitNl ((splitNl s).2 ++ t)).2) := by
  induction s with
  | nil => simp [splitNl]
  | cons c s ih =>
    by_cases hc : c = '\n'
    · subst hc
      rw [List.cons_append, splitNl_cons_newline, ih, splitNl_cons_newline]
      simp
    · rw [List.cons_append, splitNl_cons_other c _ hc, ih,
          splitNl_cons_other c s hc]
      cases h1 : (splitNl s).1 with
      | nil =>
        simp only [h1, List.nil_append]
        rw [List.cons_append, splitNl_cons_other c _ hc]
      | cons a as =>
        simp [h1]

/-- Processing a concatenation of line lists runs the first part, then
(unless an exception stopped it) the second from the reached state. -/
theorem runLines_append (jl : String → Option Json) (b : Option String)
    (n : Int) (xs ys : List (List Char)) (st : StreamCore) :
    runLines jl b n st (xs ++ ys) =
      (match (runLines jl b n st xs).err with
       | some _ => runLines jl b n st xs
       | none =>
         ⟨(runLines jl b n (runLines jl b n st xs).core ys).core,
          (runLines jl b n st xs).outs ++
            (runLines jl b n (runLines jl b n st xs).core ys).outs,
          (runLines jl b n (runLines jl b n st xs).core ys).err⟩) := by
  induction xs generalizing st with
  | nil => simp [runLines]
  | cons x xs ih =>
    simp only [List.cons_append, runLines]
    cases hx : handleLine jl b n st x with
    | error m => rfl
    | ok p =>
      obtain ⟨st1, out⟩ := p
      simp only [runLines, hx, List.append_eq]
      rw [ih st1]
      cases he : (runLines jl b n st1 xs).err with
      | some m => simp [he]
      | none => simp [he, List.append_assoc]

/-- Feeding the fragments through the line buffer is the same as
processing all complete lines of their concatenation (started from any
newline-free pending buffer). -/
theorem feedFrags_eq_concat (jl : String → Option Json) (b : Option String)
    (n : Int) (fs : List String) (st : StreamCore) (buf : List Char)
    (hbuf : '\n' ∉ buf) :
    feedFrags jl b n st buf fs =
      runLines jl b n st (splitNl (buf ++ (fs.map String.data).flatten)).1 := by
  induction fs generalizing st buf with
  | nil =>
    simp only [feedFrags, List.map_nil, List.flatten_nil, List.append_nil]
    rw [splitNl_no_newline buf hbuf]
    rfl
  | cons f fs ih =>
    simp only [feedFrags, List.map_cons, List.flatten_cons]
    rw [← List.append_assoc, splitNl_append (buf ++ f.data),
        runLines_append]
    cases he : (runLines jl b n st (splitNl (buf ++ f.data)).1).err with
    | some m =>
      simp only [he]
      rw [← he]
    | none =>
      simp only [he]
      rw [ih _ _ (splitNl_snd_no_newline (buf ++ f.data))]

/-- The characters of a joined string are the flattened fragment
characters. -/
theorem join_data (fs : List String) :
    (String.join fs).data = (fs.map String.data).flatten := by
  have aux : ∀ (l : List String) (a : String),
      (l.foldl (fun r s => r ++ s) a).data =
        a.data ++ (l.map String.data).flatten := by
    intro l
    induction l with
    | nil => intro a; simp
    | cons x xs ih =>
      intro a
      simp [List.foldl_cons, ih, String.data_append, List.append_assoc]
  simpa [String.join] using aux fs ""

/-- Chunks built by _transform_coze_stream_data are never the
role-assistant start chunk (their delta is empty or carries content, and
the failed-status payload has no choices at all). -/
theorem transformCozeStreamData_not_start (b : Option String) (n : Int)
    (d r : Json) (h : transformCozeStreamData b n d = some r) :
    isStartChunk r = false := by
  cases d with
  | obj fs =>
    simp only [transformCozeStreamData] at h
    split at h
    · injection h with h; subst h; rfl
    · split at h
      · injection h with h; subst h; rfl
      · split at h
        · injection h with h; subst h; rfl
        · split at h
          · split at h
            · split at h
              · injection h with h; subst h; rfl
              · exact Option.noConfusion h
            · exact Option.noConfusion h
          · exact Option.noConfusion h
  | null => exact Option.noConfusion h
  | bool b2 => exact Option.noConfusion h
  | num n2 => exact Option.noConfusion h
  | str s2 => exact Option.noConfusion h
  | arr l2 => exact Option.noConfusion h

/-- The synthetic start chunk classifies as a start chunk and not as a
content chunk. -/
theorem cozeStartChunk_classifiers (b : Option String) (n : Int)
    (st : StreamCore) (r : Json) :
    isStartChunk (cozeStartChunk b n st r) = true ∧
    isContentChunk (cozeStartChunk b n st r) = false :=
  ⟨rfl, rfl⟩

/-- The id probes never touch the has_yielded_start flag. -/
theorem updateIds_hys (st : StreamCore) (d : Json) (st1 : StreamCore)
    (h : updateIds st d = .ok st1) :
    st1.hasYieldedStart = st.hasYieldedStart := by
  have conv : ∀ s s', updateConvId s d = .ok s' →
      s'.hasYieldedStart = s.hasYieldedStart := by
    intro s s' hc
    unfold updateConvId at hc
    split at hc
    · injection hc with hc; subst hc; rfl
    · split at hc
      · exact Except.noConfusion hc
      · injection hc with hc; subst hc; rfl
      · split at hc
        · exact Except.noConfusion hc
        · injection hc with hc; subst hc; rfl
  have chat : ∀ s s', updateChatId s d = .ok s' →
      s'.hasYieldedStart = s.hasYieldedStart := by
    intro s s' hc
    unfold updateChatId at hc
    split at hc
    · injection hc with hc; subst hc; rfl
    · split at hc
      · exact Except.noConfusion hc
      · injection hc with hc; subst hc; rfl
      · split at hc
        · exact Except.noConfusion hc
        · injection hc with hc; subst hc; rfl
  unfold updateIds at h
  split at h
  · exact Except.noConfusion h
  · next st2 heq =>
    rw [chat st2 st1 h, conv st st2 heq]

/-- takeWhile over an append whose first part wholly satisfies the
predicate. -/
theorem takeWhile_append_all {α : Type} (p : α → Bool) (l1 l2 : List α)
    (h : ∀ x ∈ l1, p x = true) :
    (l1 ++ l2).takeWhile p = l1 ++ l2.takeWhile p := by
  induction l1 with
  | nil => simp
  | cons a l ih =>
    have ha := h a (List.mem_cons_self a l)
    simp [List.takeWhile_cons, ha,
          ih (fun x hx => h x (List.mem_cons_of_mem a hx))]

/-- takeWhile over an append stops inside the first part when some
element there falsifies the predicate. -/
theorem takeWhile_append_stop {α : Type} (p : α → Bool) (l1 l2 : List α)
    (h : ∃ x ∈ l1, p x = false) :
    (l1 ++ l2).takeWhile p = l1.takeWhile p := by
  induction l1 with
  | nil => obtain ⟨x, hx, -⟩ := h; exact absurd hx (List.not_mem_nil x)
  | cons a l ih =>
    by_cases hp : p a
    · obtain ⟨x, hx, hpx⟩ := h
      rcases List.mem_cons.mp hx with he | hm
      · subst he; rw [hp] at hpx; exact Bool.noConfusion hpx
      · simp [List.takeWhile_cons, hp, ih ⟨x, hm, hpx⟩]
    · have hpa : p a = false := by simpa using hp
      simp [List.takeWhile_cons, hpa]

/-- One SSE-framed line preserves the start-chunk protocol: counting the
chunks emitted so far, while no start chunk has been yielded nothing is
a start or content chunk, and afterwards exactly one start chunk exists
and no content chunk sits before it. -/
theorem handleLine_sse_step (jl : String → Option Json) (b : Option String)
    (n : Int) (st : StreamCore) (l : List Char)
    (hsse : sseFramed l = true) (st1 : StreamCore) (out : List Json)
    (h : handleLine jl b n st l = .ok (st1, out)) (acc : List Json)
    (h0 : st.hasYieldedStart = false →
      acc.countP isStartChunk = 0 ∧ acc.countP isContentChunk = 0)
    (h1 : st.hasYieldedStart = true →
      acc.countP isStartChunk = 1 ∧
      (acc.takeWhile (fun c => !(isStartChunk c))).countP isContentChunk = 0) :
    (st1.hasYieldedStart = false →
      (acc ++ out).countP isStartChunk = 0 ∧
      (acc ++ out).countP isContentChunk = 0) ∧
    (st1.hasYieldedStart = true →
      (acc ++ out).countP isStartChunk = 1 ∧
      ((acc ++ out).takeWhile (fun c => !(isStartChunk c))).countP
        isContentChunk = 0) := by
  unfold handleLine at h
  by_cases hemp : (stripChars l).isEmpty
  · rw [if_pos hemp] at h
    injection h with h
    injection h with he ho
    subst he; subst ho
    simp only [List.append_nil]
    exact ⟨h0, h1⟩
  · rw [if_neg hemp] at h
    by_cases hev : "event:".data.isPrefixOf (stripChars l)
    · rw [if_pos hev] at h
      injection h with h
      injection h with he ho
      subst he; subst ho
      simp only [List.append_nil]
      exact ⟨h0, h1⟩
    · rw [if_neg hev] at h
      by_cases hda : "data:".data.isPrefixOf (stripChars l)
      · rw [if_pos hda] at h
        by_cases hde : (stripChars ((stripChars l).drop 5)).isEmpty
        · rw [if_pos hde] at h
          injection h with h
          injection h with he ho
          subst he; subst ho
          simp only [List.append_nil]
          exact ⟨h0, h1⟩
        · rw [if_neg hde] at h
          cases hjl : jl ⟨stripChars ((stripChars l).drop 5)⟩ with
          | none =>
            simp only [hjl] at h
            injection h with h
            injection h with he ho
            subst he; subst ho
            simp only [List.append_nil]
            exact ⟨h0, h1⟩
          | some data =>
            simp only [hjl] at h
            cases hup : updateIds st data with
            | error m => simp only [hup] at h; exact Except.noConfusion h
            | ok st2 =>
              simp only [hup] at h
              have hys2 := updateIds_hys st data st2 hup
              cases htr : transformCozeStreamData b n data with
              | none =>
                simp only [htr] at h
                injection h with h
                injection h with he ho
                subst he; subst ho
                rw [hys2]
                simp only [List.append_nil]
                exact ⟨h0, h1⟩
              | some result =>
                simp only [htr] at h
                have hns := transformCozeStreamData_not_start b n data result htr
                by_cases htru : result.pyTruthy
                · rw [if_pos htru] at h
                  by_cases hstart : st2.hasYieldedStart
                  · rw [hstart] at h
                    simp only [Bool.not_true, Bool.false_eq_true, if_false] at h
                    injection h with h
                    injection h with he ho
                    subst he; subst ho
                    have hacc := h1 (by rw [← hys2]; exact hstart)
                    constructor
                    · intro hne
                      rw [hstart] at hne
                      exact Bool.noConfusion hne
                    · intro _
                      constructor
                      · rw [List.countP_append]
                        simp [List.countP_cons, hns, hacc.1]
                      · rw [takeWhile_append_stop]
                        · exact hacc.2
                        · have : 0 < acc.countP isStartChunk := by
                            rw [hacc.1]; exact Nat.zero_lt_one
                          obtain ⟨x, hx, hpx⟩ := List.countP_pos_iff.mp this
                          exact ⟨x, hx, by simp [hpx]⟩
                  · rw [Bool.not_eq_true] at hstart
                    rw [hstart] at h
                    simp only [Bool.not_false, if_true] at h
                    injection h with h
                    injection h with he ho
                    subst he; subst ho
                    have hacc := h0 (by rw [← hys2]; exact hstart)
                    have hstc := cozeStartChunk_classifiers b n st2 result
                    constructor
                    · intro hne
                      exact Bool.noConfusion hne
                    · intro _
                      constructor
                      · rw [List.countP_append]
                        simp [List.countP_cons, hns, hstc.1, hacc.1]
                      · rw [takeWhile_append_all]
                        · rw [List.countP_append]
                          rw [hacc.2]
                          simp [List.takeWhile_cons, hstc.1]
                        · intro x hx
                          have := List.countP_eq_zero.mp hacc.1 x hx
                          simp [this]
                · rw [if_neg htru] at h
                  injection h with h
                  injection h with he ho
                  subst he; subst ho
                  rw [hys2]
                  simp only [List.append_nil]
                  exact ⟨h0, h1⟩
      · exfalso
        unfold sseFramed at hsse
        rw [Bool.or_eq_true, Bool.or_eq_true] at hsse
        rcases hsse with (hc | hc) | hc
        · exact hemp (by simpa using hc)
        · exact hev hc
        · exact hda hc

/-- Running SSE-framed lines preserves the start-chunk protocol. -/
theorem runLines_start_invariant (jl : String → Option Json)
    (b : Option String) (n : Int) :
    ∀ (lines : List (List Char)) (st : StreamCore) (acc : List Json),
      (∀ x ∈ lines, sseFramed x = true) →
      (st.hasYieldedStart = false →
        acc.countP isStartChunk = 0 ∧ acc.countP isContentChunk = 0) →
      (st.hasYieldedStart = true →
        acc.countP isStartChunk = 1 ∧
        (acc.takeWhile (fun c => !(isStartChunk c))).countP isContentChunk = 0) →
      ((runLines jl b n st lines).core.hasYieldedStart = false →
        (acc ++ (runLines jl b n st lines).outs).countP isStartChunk = 0 ∧
        (acc ++ (runLines jl b n st lines).outs).countP isContentChunk = 0) ∧
      ((runLines jl b n st lines).core.hasYieldedStart = true →
        (acc ++ (runLines jl b n st lines).outs).countP isStartChunk = 1 ∧
        ((acc ++ (runLines jl b n st lines).outs).takeWhile
          (fun c => !(isStartChunk c))).countP isContentChunk = 0) := by
  intro lines
  induction lines with
  | nil =>
    intro st acc hall h0 h1
    simp only [runLines, List.append_nil]
    exact ⟨h0, h1⟩
  | cons x xs ih =>
    intro st acc hall h0 h1
    simp only [runLines]
    cases hx : handleLine jl b n st x with
    | error m =>
      simp only [hx, List.append_nil]
      exact ⟨h0, h1⟩
    | ok p =>
      obtain ⟨st1, out⟩ := p
      have hstep := handleLine_sse_step jl b n st x
        (hall x (List.mem_cons_self x xs)) st1 out hx acc h0 h1
      have hrec := ih st1 (acc ++ out)
        (fun y hy => hall y (List.mem_cons_of_mem x hy)) hstep.1 hstep.2
      simp only [hx]
      rw [← List.append_assoc]
      exact hrec

/-! ## Claim theorems -/

/-- C3: Coze bot-id derivation in transform_request: model bot-abc123
derives bot_id abc123; model abc123 (no prefix word) keeps the whole
string; an empty model makes the transform fail with a validation error
instead of returning a request. -/
theorem c3_coze_bot_id_derivation :
    cozeTransformRequest "/chat/completions"
      ⟨some "bot-abc123", some [⟨some "user", some "hi"⟩], none, none, none, none⟩ =
      .ok (.coze ⟨"abc123", "default_user", [⟨some "user", "hi"⟩], false⟩) ∧
    cozeTransformRequest "/chat/completions"
      ⟨some "abc123", some [⟨some "user", some "hi"⟩], none, none, none, none⟩ =
      .ok (.coze ⟨"abc123", "default_user", [⟨some "user", "hi"⟩], false⟩) ∧
    cozeTransformRequest "/chat/completions"
      ⟨some "", some [⟨some "user", some "hi"⟩], none, none, none, none⟩ =
      .error "Bot ID could not be extracted from model name" :=
  ⟨rfl, rfl, rfl⟩

/-- C4: for every /chat/completions request with a non-empty messages
list and a derivable bot id, the Coze transform outputs user_id equal to
the user field (default_user when absent), stream equal to the stream
flag (false when absent), and additional_messages equal to the earlier
messages with role and content preserved followed by a final user entry
whose content is the last message's content (the query). -/
theorem c4_coze_transform_request_shape (req : OpenAIRequest)
    (msgs : List ChatMessage) (last : ChatMessage)
    (hm : req.messages = some msgs) (hl : msgs.getLast? = some last)
    (hb : deriveBotId (req.model.getD "") ≠ "") :
    cozeTransformRequest "/chat/completions" req =
      .ok (.coze ⟨deriveBotId (req.model.getD ""),
                  req.user.getD "default_user",
                  (msgs.dropLast.map fun m => (⟨m.role, m.content.getD ""⟩ : CozeMsg)) ++
                    [⟨some "user", last.content.getD ""⟩],
                  req.stream.getD false⟩) := by
  have hq := cozeQueryHistory_eq msgs last hl
  simp only [cozeTransformRequest, hm, if_pos rfl, hq, if_neg hb]
  by_cases he : (msgs.dropLast.map fun m => (⟨m.role, m.content.getD ""⟩ : CozeMsg)).isEmpty
  · rw [List.isEmpty_iff] at he
    simp [he]
  · simp only [he, Bool.false_eq_true, if_false, if_neg]
    simp [List.isEmpty_iff] at he
    simp

/-- Witness for C4 at a concrete two-message request. -/
theorem c4_coze_transform_request_shape_witness :
    cozeTransformRequest "/chat/completions" c4req =
      .ok (.coze ⟨"b", "u1",
                  [⟨some "system", "be nice"⟩, ⟨some "user", "hello"⟩],
                  true⟩) := by
  have h := c4_coze_transform_request_shape c4req
    [⟨some "system", some "be nice"⟩, ⟨some "user", some "hello"⟩]
    ⟨some "user", some "hello"⟩ rfl rfl (by decide)
  simpa using h

/-- C10: the Coze transform does not enforce non-empty messages: on an
empty messages list (with a derivable bot id) it succeeds, with an empty
query realized as additional_messages consisting of the single entry
role user, content empty. -/
theorem c10_coze_empty_messages (model : String) (user : Option String)
    (stream : Option Bool) (hb : deriveBotId model ≠ "") :
    cozeTransformRequest "/chat/completions"
      ⟨some model, some [], user, stream, none, none⟩ =
      .ok (.coze ⟨deriveBotId model, user.getD "default_user",
                  [⟨some "user", ""⟩], stream.getD false⟩) := by
  simp [cozeTransformRequest, cozeQueryHistory, if_neg hb]

/-- Witness for C10 at a concrete empty-messages request. -/
theorem c10_coze_empty_messages_witness :
    cozeTransformRequest "/chat/completions"
      ⟨some "bot-x", some [], none, none, none, none⟩ =
      .ok (.coze ⟨"x", "default_user", [⟨some "user", ""⟩], false⟩) := by
  have h := c10_coze_empty_messages "bot-x" none none (by decide)
  simpa using h

/-- C8: the three-record Coze scenario (in_progress, in_progress,
completed, no message content) normalizes to exactly four chunks: the
role-assistant start chunk, two empty-delta chunks with null
finish_reason, and a final empty-delta chunk with finish_reason stop. -/
theorem c8_three_record_scenario :
    makeStreamOutputs parseJson none 0 200
      ["data: \x7b\"status\": \"in_progress\"\x7d\n\ndata: \x7b\"status\": \"in_progress\"\x7d\n\ndata: \x7b\"status\": \"completed\"\x7d\n\n"]
      none =
    [cozeStreamChunk (.str "coze-unknown") (.num 0) "coze-bot"
       [("role", .str "assistant")] .null,
     cozeStreamChunk (.str "coze-unknown") (.num 0) "coze-bot" [] .null,
     cozeStreamChunk (.str "coze-unknown") (.num 0) "coze-bot" [] .null,
     cozeStreamChunk (.str "coze-unknown") (.num 0) "coze-bot" [] (.str "stop")] := by
  rfl

/-- C5 counterexample: on a response with none of the recognized fields,
the Anthropic and Google converters return the response unchanged, so
the result has no choices list at all (in particular not a one-element
choices list with finish_reason stop); the claim that every one of the
three adapters degrades to the one-choice stop fallback is false. -/
theorem c5_counterexample :
    convertFromAnthropicFormat [("foo", .null)] = .ok (.obj [("foo", .null)]) ∧
    convertFromGoogleFormat (fun _ => 0) [("foo", .null)] = .ok (.obj [("foo", .null)]) ∧
    choicesOf (.obj [("foo", .null)]) = none ∧
    firstChoiceFinish (.obj [("foo", .null)]) = none :=
  ⟨rfl, rfl, rfl, rfl⟩

/-- C5 (amended): on a provider response with none of its recognized
fields, the Coze transform yields the fallback response with exactly one
choice and finish_reason stop, while the Anthropic and Google converters
return the response unchanged; none of the three raises. -/
theorem c5_unrecognized_response_fallback (botId : Option String) (now : Int)
    (hashF : Json → Int) (resp : List (String × Json)) :
    (Json.lookupKey resp "messages" = none →
      ∃ j, cozeTransformChatResponse botId now resp = .ok j ∧
        (choicesOf j).map List.length = some 1 ∧
        firstChoiceFinish j = some (.str "stop")) ∧
    ((∀ l, Json.lookupKey resp "content" ≠ some (.arr l)) →
      convertFromAnthropicFormat resp = .ok (.obj resp)) ∧
    (Json.lookupKey resp "candidates" = none →
      convertFromGoogleFormat hashF resp = .ok (.obj resp)) := by
  refine ⟨fun hm => ?_, fun hc => ?_, fun hg => ?_⟩
  · refine ⟨.obj
      [("id", .str ("chatcmpl-" ++
         pyStr ((Json.lookupKey resp "conversation_id").getD (.str "unknown")))),
       ("object", .str "chat.completion"),
       ("created", .num now),
       ("model", .str (cozeModelName botId)),
       ("choices", .arr [.obj
         [("index", .num 0),
          ("message", .obj [("role", .str "assistant"), ("content", .str "")]),
          ("finish_reason", .str "stop")]]),
       ("usage", .obj
         [("prompt_tokens", .num 0),
          ("completion_tokens", .num 0),
          ("total_tokens", .num 0)])], ?_, rfl, rfl⟩
    simp only [cozeTransformChatResponse, hm, cozeAnswerScan]
    rfl
  · unfold convertFromAnthropicFormat
    cases hv : Json.lookupKey resp "content" with
    | none => rfl
    | some v =>
      cases v with
      | arr l => exact absurd hv (hc l)
      | null => rfl
      | bool b => rfl
      | num n => rfl
      | str s => rfl
      | obj fs => rfl
  · unfold convertFromGoogleFormat
    rw [hg]

/-- Witness for C5 (amended) at a concrete unrecognized response. -/
theorem c5_unrecognized_response_fallback_witness :
    (∃ j, cozeTransformChatResponse none 0 [("foo", .null)] = .ok j ∧
      (choicesOf j).map List.length = some 1 ∧
      firstChoiceFinish j = some (.str "stop")) ∧
    convertFromAnthropicFormat [("foo", .null)] = .ok (.obj [("foo", .null)]) ∧
    convertFromGoogleFormat (fun _ => 0) [("foo", .null)] = .ok (.obj [("foo", .null)]) := by
  have h := c5_unrecognized_response_fallback none 0 (fun _ => 0) [("foo", .null)]
  exact ⟨h.1 rfl, h.2.1 (by intro l h; simp [Json.lookupKey] at h), h.2.2 rfl⟩

/-- C6 counterexample: a system-role message is mapped to Google role
model, not user as the claim states. -/
theorem c6_counterexample :
    convertToGoogleFormat ⟨none, some [⟨some "system", some "s"⟩], none, none, none, none⟩ =
      .google ⟨[⟨"model", [⟨"s"⟩]⟩], none⟩ ∧
    ("model" : String) ≠ "user" :=
  ⟨rfl, by decide⟩

/-- C6 (amended): the Google request transform maps every message to a
role and a single text part, where a user-role message gets role user
and every other role (assistant, system, tool, or missing) gets role
model, and a present max_tokens is moved into
generationConfig.maxOutputTokens (no generationConfig otherwise). -/
theorem c6_google_request_transform (req : OpenAIRequest)
    (msgs : List ChatMessage) (h : req.messages = some msgs) :
    convertToGoogleFormat req =
      .google ⟨msgs.map (fun m =>
                 ⟨if m.role = some "user" then "user" else "model",
                  [⟨m.content.getD ""⟩]⟩),
               req.max_tokens.map (fun n => ⟨n⟩)⟩ := by
  cases hmt : req.max_tokens with
  | none => simp [convertToGoogleFormat, h, hmt, googleContentsLoop_eq]
  | some n => simp [convertToGoogleFormat, h, hmt, googleContentsLoop_eq]

/-- Witness for C6 (amended) at the spec scenario input. -/
theorem c6_google_request_transform_witness :
    convertToGoogleFormat ⟨none, some [⟨some "assistant", some "ok"⟩], none, none, some 5, none⟩ =
      .google ⟨[⟨"model", [⟨"ok"⟩]⟩], some ⟨5⟩⟩ := by
  have h := c6_google_request_transform
    ⟨none, some [⟨some "assistant", some "ok"⟩], none, none, some 5, none⟩
    [⟨some "assistant", some "ok"⟩] rfl
  simpa using h

/-- C7 counterexample: with a system message whose content is empty, the
Anthropic transform leaves the system field unset (the assignment is
guarded by truthiness), so the claim that the system field is always set
to the last system message's content is false. -/
theorem c7_counterexample :
    convertToAnthropicFormat
      ⟨none, some [⟨some "system", some ""⟩, ⟨some "user", some "Hi"⟩],
       none, none, none, none⟩ =
      .ok ⟨none, some [⟨some "user", some "Hi"⟩], none, none, some 4096, none⟩ ∧
    (⟨none, some [⟨some "user", some "Hi"⟩], none, none, some 4096, none⟩ :
      OpenAIRequest).system = none :=
  ⟨rfl, rfl⟩

/-- C7 (amended): the Anthropic transform removes every system-role
message, keeps the non-system messages in order, defaults max_tokens to
4096 exactly when absent, preserves the other fields, and sets the
top-level system field to the last system message's content only when
that content is non-empty (otherwise the field is left as it was). -/
theorem c7_anthropic_request_transform (req : OpenAIRequest)
    (msgs : List ChatMessage) (h : req.messages = some msgs) :
    ∃ r, convertToAnthropicFormat req = .ok r ∧
      r.messages = some (msgs.filter (fun m => m.role ≠ some "system")) ∧
      r.max_tokens = some (req.max_tokens.getD 4096) ∧
      r.system =
        (match ((msgs.filter (fun m => m.role = some "system")).map
            (fun m => m.content.getD "")).getLast? with
         | some s => if s ≠ "" then some s else req.system
         | none => req.system) ∧
      r.model = req.model ∧ r.user = req.user ∧ r.stream = req.stream := by
  unfold convertToAnthropicFormat
  rw [h]
  refine ⟨_, rfl, ?_⟩
  rw [← anthropicSplitSystem_fst, ← anthropicSplitSystem_snd]
  cases hs : (anthropicSplitSystem msgs).1 with
  | none =>
    cases hmt : req.max_tokens with
    | none => simp [hmt]
    | some v => simp [hmt]
  | some s =>
    by_cases hne : s = ""
    · subst hne
      cases hmt : req.max_tokens with
      | none => simp [hmt]
      | some v => simp [hmt]
    · cases hmt : req.max_tokens with
      | none => simp [hmt, hne]
      | some v => simp [hmt, hne]

/-- Witness for C7 (amended) at the spec scenario input. -/
theorem c7_anthropic_request_transform_witness :
    ∃ r, convertToAnthropicFormat
      ⟨none, some [⟨some "system", some "Be terse"⟩, ⟨some "user", some "Hi"⟩],
       none, none, none, none⟩ = .ok r ∧
      r.messages = some [⟨some "user", some "Hi"⟩] ∧
      r.max_tokens = some 4096 ∧
      r.system = some "Be terse" := by
  obtain ⟨r, h1, h2, h3, h4, -⟩ := c7_anthropic_request_transform
    ⟨none, some [⟨some "system", some "Be terse"⟩, ⟨some "user", some "Hi"⟩],
     none, none, none, none⟩
    [⟨some "system", some "Be terse"⟩, ⟨some "user", some "Hi"⟩] rfl
  refine ⟨r, h1, ?_, h3, ?_⟩
  · simpa using h2
  · simpa using h4

/-- C9: with an initialized, enabled adapter and a supported endpoint,
process_request never lets an exception escape (every outcome is a
returned payload), and when the transform succeeded and the upstream
call returned a status of 400 or more the returned payload is the
platform_error object embedding that status code. -/
theorem c9_manager_platform_error (adapter : AdapterState) (endpoint : String)
    (tr : Except String Json) (up : Except String PlatformResponse)
    (tresp : Json → Except String Json)
    (h1 : adapter.initialized = true) (h2 : adapter.enabled = true)
    (h3 : adapter.supportedEndpoints.contains endpoint = true) :
    (∃ j, processRequest adapter endpoint tr up tresp = .ok j) ∧
    (∀ q resp, tr = .ok q → up = .ok resp → 400 ≤ resp.status_code →
      processRequest adapter endpoint tr up tresp =
        .ok (managerPlatformError resp.status_code)) := by
  have h3' : endpoint ∈ adapter.supportedEndpoints := by
    simpa using h3
  constructor
  · cases tr with
    | error m =>
      exact ⟨managerInternalError m, by simp [processRequest, h1, h2, h3']⟩
    | ok q =>
      cases up with
      | error m =>
        exact ⟨managerInternalError m, by simp [processRequest, h1, h2, h3']⟩
      | ok resp =>
        by_cases hst : 400 ≤ resp.status_code
        · exact ⟨managerPlatformError resp.status_code,
            by simp [processRequest, h1, h2, h3', hst]⟩
        · by_cases hj : resp.json.pyTruthy
          · cases htr : tresp resp.json with
            | ok j =>
              exact ⟨j, by simp [processRequest, h1, h2, h3', hst, hj, htr]⟩
            | error m =>
              exact ⟨managerInternalError m,
                by simp [processRequest, h1, h2, h3', hst, hj, htr]⟩
          · exact ⟨managerInvalidResponse,
              by simp [processRequest, h1, h2, h3', hst, hj]⟩
  · intro q resp htr hup hst
    subst htr; subst hup
    simp [processRequest, h1, h2, h3', hst]

/-- C1: for every complete SSE byte stream, feeding the Coze streaming
normalizer the stream split at arbitrary fragment boundaries produces
exactly the chunk sequence produced by feeding it whole: the line buffer
makes the output a function of the concatenation of the fragments alone
(for any json.loads behaviour, bot id, clock, upstream status and
recovery-fetch outcome). -/
theorem c1_fragment_boundary_invariance (jl : String → Option Json)
    (botId : Option String) (now : Int) (status : Nat)
    (fetched : Option String) (fs : List String) :
    makeStreamOutputs jl botId now status fs fetched =
      makeStreamOutputs jl botId now status [String.join fs] fetched := by
  unfold makeStreamOutputs
  by_cases hs : 400 ≤ status
  · simp [hs]
  · simp only [ge_iff_le, if_neg hs]
    rw [feedFrags_eq_concat jl botId now fs initStreamCore [] (by simp),
        feedFrags_eq_concat jl botId now [String.join fs] initStreamCore []
          (by simp)]
    simp [join_data]

/-- C2 counterexample: a session whose body is one bare JSON line (no
SSE data: framing) takes the fallback _parse_stream_line path, which
yields a content chunk directly: the session produces one content chunk
and no start chunk at all, refuting the claim that every session with a
content chunk emits exactly one start chunk before it. -/
theorem c2_counterexample :
    (makeStreamOutputs parseJson none 0 200
      ["\x7b\"message\": \x7b\"content\": \"hi\"\x7d\x7d\n"] none).countP
        isContentChunk = 1 ∧
    (makeStreamOutputs parseJson none 0 200
      ["\x7b\"message\": \x7b\"content\": \"hi\"\x7d\x7d\n"] none).countP
        isStartChunk = 0 :=
  ⟨rfl, rfl⟩

/-- C2 (amended): restricted to sessions whose reassembled lines all
stay inside SSE framing (blank, event: or data: lines) and whose
post-stream recovery fetch yields nothing, at most one start chunk is
ever emitted, and if the session produces at least one content chunk
then exactly one start chunk is emitted and no content chunk precedes
it.  (The bare-line fallback path and the recovery fetch can emit
content chunks without a start chunk.) -/
theorem c2_single_start_before_content (jl : String → Option Json)
    (botId : Option String) (now : Int) (status : Nat) (fs : List String)
    (hsse : ∀ x ∈ (splitNl ((fs.map String.data).flatten)).1, sseFramed x = true) :
    (makeStreamOutputs jl botId now status fs none).countP isStartChunk ≤ 1 ∧
    (0 < (makeStreamOutputs jl botId now status fs none).countP isContentChunk →
      (makeStreamOutputs jl botId now status fs none).countP isStartChunk = 1 ∧
      ((makeStreamOutputs jl botId now status fs none).takeWhile
        (fun c => !(isStartChunk c))).countP isContentChunk = 0) := by
  unfold makeStreamOutputs
  by_cases hs : 400 ≤ status
  · simp only [ge_iff_le, if_pos hs]
    have e1 : isStartChunk (.obj [("error", .obj
      [("message", .str ("Coze API error: " ++ toString status)),
       ("type", .str "platform_error"),
       ("code", .num (status : Int))])]) = false := rfl
    have e2 : isContentChunk (.obj [("error", .obj
      [("message", .str ("Coze API error: " ++ toString status)),
       ("type", .str "platform_error"),
       ("code", .num (status : Int))])]) = false := rfl
    constructor
    · simp [List.countP_cons, e1]
    · intro hpos
      simp [List.countP_cons, e2] at hpos
  · simp only [ge_iff_le, if_neg hs]
    rw [feedFrags_eq_concat jl botId now fs initStreamCore [] (by simp)]
    simp only [List.nil_append]
    have hinv := runLines_start_invariant jl botId now
      (splitNl ((fs.map String.data).flatten)).1 initStreamCore [] hsse
      (fun _ => ⟨rfl, rfl⟩) (fun hcontra => Bool.noConfusion hcontra)
    simp only [List.nil_append] at hinv
    cases herr : (runLines jl botId now initStreamCore
        (splitNl ((fs.map String.data).flatten)).1).err with
    | some m =>
      have ie1 : isStartChunk (.obj [("error", .obj
        [("message", .str ("Internal error: " ++ m)),
         ("type", .str "internal_error"),
         ("code", .str "streaming_error")])]) = false := rfl
      have ie2 : isContentChunk (.obj [("error", .obj
        [("message", .str ("Internal error: " ++ m)),
         ("type", .str "internal_error"),
         ("code", .str "streaming_error")])]) = false := rfl
      cases hys : (runLines jl botId now initStreamCore
          (splitNl ((fs.map String.data).flatten)).1).core.hasYieldedStart with
      | false =>
        have hout := hinv.1 hys
        constructor
        · simp [List.countP_append, List.countP_cons, ie1, hout.1]
        · intro hpos
          rw [List.countP_append] at hpos
          simp [List.countP_cons, ie2, hout.2] at hpos
      | true =>
        have hout := hinv.2 hys
        constructor
        · simp [List.countP_append, List.countP_cons, ie1, hout.1]
        · intro _
          constructor
          · simp [List.countP_append, List.countP_cons, ie1, hout.1]
          · rw [takeWhile_append_stop]
            · exact hout.2
            · have hpos : 0 < (runLines jl botId now initStreamCore
                  (splitNl ((fs.map String.data).flatten)).1).outs.countP
                    isStartChunk := by
                rw [hout.1]; exact Nat.zero_lt_one
              obtain ⟨x, hx, hpx⟩ := List.countP_pos_iff.mp hpos
              exact ⟨x, hx, by simp [hpx]⟩
    | none =>
      simp only [ite_self, List.append_nil]
      cases hys : (runLines jl botId now initStreamCore
          (splitNl ((fs.map String.data).flatten)).1).core.hasYieldedStart with
      | false =>
        have hout := hinv.1 hys
        constructor
        · simp [hout.1]
        · intro hpos
          simp [hout.2] at hpos
      | true =>
        have hout := hinv.2 hys
        exact ⟨le_of_eq hout.1, fun _ => hout⟩

/-- Witness for C2 (amended) at a concrete SSE session with one content
chunk: the start chunk count is exactly one. -/
theorem c2_single_start_before_content_witness :
    0 < (makeStreamOutputs parseJson none 0 200
      ["data: \x7b\"message\": \x7b\"content\": \"hi\"\x7d\x7d\n"] none).countP
        isContentChunk ∧
    (makeStreamOutputs parseJson none 0 200
      ["data: \x7b\"message\": \x7b\"content\": \"hi\"\x7d\x7d\n"] none).countP
        isStartChunk = 1 := by
  have h := c2_single_start_before_content parseJson none 0 200
    ["data: \x7b\"message\": \x7b\"content\": \"hi\"\x7d\x7d\n"] (by decide)
  exact ⟨by decide, (h.2 (by decide)).1⟩

/-- Witness for C9: an enabled Coze-like adapter whose upstream returns
503 hands the caller the platform_error payload with code 503. -/
theorem c9_manager_platform_error_witness :
    processRequest ⟨true, true, ["/chat/completions"]⟩ "/chat/completions"
      (.ok .null) (.ok ⟨503, .null⟩) (fun j => .ok j) =
      .ok (managerPlatformError 503) := by
  exact (c9_manager_platform_error ⟨true, true, ["/chat/completions"]⟩
    "/chat/completions" (.ok .null) (.ok ⟨503, .null⟩) (fun j => .ok j)
    rfl rfl (by decide)).2 .null ⟨503, .null⟩ rfl rfl (by decide)

end Bots
